import Mathlib

/-!
Verification of `data_processor.py` (RGB-Student-Evaluation-of-Instruction).

Shallow embedding conventions:
* a cell is `Option String` (`none` models pandas NaN);
* a row is an association list from column name to cell; a missing column is
  read as null (the claims only exercise columns that are present);
* machine floats are modelled by `ℚ`; `np.mean`/`Series.mean` become exact
  rational means; Python `round(x, 2)` (banker's rounding) becomes exact
  half-even rounding on rationals;
* `np.mean` of an empty list is NaN in numpy; it is modelled as `0` here and
  no settled statement depends on that value.
-/

/-- Whitespace characters removed by Python `str.strip()` (ASCII whitespace
plus the ideographic space that appears in Japanese survey text). -/
def isPySpace (c : Char) : Bool :=
  (c == ' ') || (c == '\t') || (c == '\n') || (c == '\r') ||
  (c == '\x0b') || (c == '\x0c') || (c == '　')

/-- List-level strip: drop leading and trailing whitespace. -/
def stripList (l : List Char) : List Char :=
  ((l.dropWhile isPySpace).reverse.dropWhile isPySpace).reverse

/-- Python `str.strip()` on the embedded strings. -/
def pyStrip (s : String) : String :=
  String.mk (stripList s.data)

/-- `SCORE_MAPPING` from `data_processor.py` (4-point scale phrase table). -/
def SCORE_MAPPING : List (String × Nat) :=
  [("とてもそう思う", 4), ("当てはまる", 4), ("とても当てはまる", 4), ("強くそう思う", 4),
   ("そう思う", 3), ("どちらかといえばそう思う", 3), ("やや当てはまる", 3),
   ("どちらかといえば当てはまる", 3),
   ("あまりそう思わない", 2), ("どちらかといえばそう思わない", 2),
   ("あまり当てはまらない", 2), ("どちらかといえば当てはまらない", 2),
   ("思わない", 1), ("そう思わない", 1), ("当てはまらない", 1),
   ("全く当てはまらない", 1), ("全くそう思わない", 1)]

/-- `convert_to_score`: null stays null, otherwise strip the text and look it
up in the phrase table; unrecognised text yields null. -/
def convert_to_score (value : Option String) : Option Nat :=
  match value with
  | none => none
  | some s => SCORE_MAPPING.lookup (pyStrip s)

/-- A respondent row: association list from column header to cell. -/
abbrev Row := List (String × Option String)

/-- Read a cell; an absent column reads as null. -/
def getCell (r : Row) (c : String) : Option String :=
  match List.lookup c r with
  | some v => v
  | none => none

/-- `df[question].apply(convert_to_score)` for one question column. -/
def columnScores (df : List Row) (q : String) : List (Option Nat) :=
  df.map (fun r => convert_to_score (getCell r q))

/-- The non-null scores of one question column (`scores.dropna()`). -/
def validScores (df : List Row) (q : String) : List Nat :=
  (columnScores df q).filterMap id

/-- Exact rational addition in a kernel-computable form
(`qadd_eq` proves it equal to `+`). -/
def qadd (a b : ℚ) : ℚ :=
  mkRat (a.num * b.den + b.num * a.den) (a.den * b.den)

/-- Exact rational subtraction in a kernel-computable form
(`qsub_eq` proves it equal to `-`). -/
def qsub (a b : ℚ) : ℚ :=
  mkRat (a.num * b.den - b.num * a.den) (a.den * b.den)

/-- Multiplication by a natural number in a kernel-computable form
(`qmulNat_eq` proves it equal to `* n`). -/
def qmulNat (a : ℚ) (k : Nat) : ℚ :=
  mkRat (a.num * k) a.den

/-- Division by a natural number in a kernel-computable form
(`qdivNat_eq` proves it equal to `/ n`). -/
def qdivNat (a : ℚ) (k : Nat) : ℚ :=
  mkRat a.num (a.den * k)

/-- Sum of a list of rationals (`qsum_eq` proves it equal to `List.sum`). -/
def qsum (l : List ℚ) : ℚ :=
  l.foldl qadd 0

/-- Arithmetic mean of a list of scores (Series.mean over valid entries):
the rational sum-over-length, written with `mkRat` so that it computes
(`meanScores_eq` gives the `/` form). -/
def meanScores (l : List Nat) : ℚ :=
  mkRat l.sum l.length

/-- Arithmetic mean of a list of rationals (`np.mean`): sum over length,
written computably (`pymean_eq` gives the `/` form). The empty list is
modelled as 0; numpy would give NaN there and no settled statement
evaluates that case. -/
def pymean (l : List ℚ) : ℚ :=
  if l.length = 0 then 0 else qdivNat (qsum l) l.length

/-- One output row of `calculate_statistics`. -/
structure QuestionStat where
  question : String
  mean : ℚ
  validCount : Nat
  count4 : Nat
  count3 : Nat
  count2 : Nat
  count1 : Nat
deriving DecidableEq

/-- `calculate_statistics`: per question, skip it entirely when it has no
valid responses, otherwise emit mean, valid count and the four bucket
counts. -/
def calculate_statistics (df : List Row) (qcols : List String) : List QuestionStat :=
  qcols.filterMap (fun q =>
    let vs := validScores df q
    if vs.length = 0 then none
    else some ⟨q, meanScores vs, vs.length, vs.count 4, vs.count 3, vs.count 2, vs.count 1⟩)

/-- The `平均値` column of the statistics table as a list
(`stats['平均値'].tolist()`). -/
def avgValues (df : List Row) (qcols : List String) : List ℚ :=
  (calculate_statistics df qcols).map (·.mean)

/-- `get_overall_average`: accumulate every question's valid scores into one
list (in question order) and take its mean, with 0.0 for the empty list. -/
def get_overall_average (df : List Row) (qcols : List String) : ℚ :=
  let all_scores := qcols.foldl (fun acc q => acc ++ validScores df q) []
  if all_scores.length = 0 then 0 else mkRat all_scores.sum all_scores.length

/-- The union of all valid scores over all question columns. -/
def allValidScores (df : List Row) (qcols : List String) : List Nat :=
  (qcols.map (validScores df)).flatten

/-- Modelled from the spec: the overall average is the mean over the union of
all valid scores across all question columns (sum over count), 0 when the
union is empty. Stated for comparison with `get_overall_average`. -/
def overallAverageSpec (df : List Row) (qcols : List String) : ℚ :=
  let all := allValidScores df qcols
  if all.length = 0 then 0 else (all.sum : ℚ) / all.length

/-- Round a rational to the nearest integer, ties to even (Python `round`). -/
def roundHalfEven (x : ℚ) : ℤ :=
  let fl := ⌊x⌋
  let frac := qsub x (mkRat fl 1)
  if frac < mkRat 1 2 then fl
  else if mkRat 1 2 < frac then fl + 1
  else if fl % 2 = 0 then fl else fl + 1

/-- Python `round(x, 2)` modelled exactly on rationals: round `100 * x` half
to even, divide by 100. -/
def round2 (x : ℚ) : ℚ :=
  mkRat (roundHalfEven (qmulNat x 100)) 100

/-- How a template slot was matched to a data question
(`完全一致` / `部分一致（テンプレート⊂データ）` / `部分一致（データ⊂テンプレート）`). -/
inductive MatchType where
  | exact
  | tSubD
  | dSubT
deriving DecidableEq

/-- Python's substring test `p in l` on character lists. -/
def isSubList (p : List Char) : List Char → Bool
  | [] => p.isEmpty
  | c :: cs => p.isPrefixOf (c :: cs) || isSubList p cs

/-- Python's substring test `a in b` on strings. -/
def isSub (a b : String) : Bool :=
  isSubList a.data b.data

/-- The exact-match scan of `write_to_template`: first index whose question
text equals the slot text, starting the count at `i`. -/
def findExactAux (tq : String) : List String → Nat → Option Nat
  | [], _ => none
  | q :: rest, i => if q == tq then some i else findExactAux tq rest (i + 1)

/-- The partial-match scan of `write_to_template`: for each candidate, in
order, test slot-in-data first, then data-in-slot; claim the first hit. -/
def findPartialAux (tq : String) : List String → Nat → Option (Nat × MatchType)
  | [], _ => none
  | q :: rest, i =>
    if isSub tq q then some (i, MatchType.tSubD)
    else if isSub q tq then some (i, MatchType.dSubT)
    else findPartialAux tq rest (i + 1)

/-- Match one template slot text against the data question list: exact match
first, partial match only when no exact match exists. -/
def matchSlot (qcols : List String) (tq : String) : Option (Nat × MatchType) :=
  match findExactAux tq qcols 0 with
  | some i => some (i, MatchType.exact)
  | none => findPartialAux tq qcols 0

/-- The question reconciliation of `write_to_template`: for each template
slot `(columnIndex, text)` record `(columnIndex, dataIndex, matchType)` when
the slot matches (the matched data question text is `qcols[dataIndex]`). -/
def reconcile (tqs : List (Nat × String)) (qcols : List String) :
    List (Nat × Nat × MatchType) :=
  tqs.filterMap (fun ct => (matchSlot qcols ct.2).map (fun im => (ct.1, im.1, im.2)))

/-- `unmapped_questions`: the template slots whose column index received no
mapping. -/
def unmappedSlots (tqs : List (Nat × String)) (qcols : List String) :
    List (Nat × String) :=
  tqs.filter (fun ct => !((reconcile tqs qcols).map (·.1)).contains ct.1)

/-- `match_info['excess_questions'] = question_cols[30:] if len(question_cols) > 30 else []`. -/
def excess_questions (qcols : List String) : List String :=
  if 30 < qcols.length then qcols.drop 30 else []

/-- One pass of Python `text.replace(pat, rep)` (non-overlapping, leftmost
first), written with explicit fuel so that it is structurally recursive; a
fuel of `s.length` always suffices since each step consumes at least one
character. The call sites only use non-empty patterns. -/
def replaceAux (pat rep : List Char) : Nat → List Char → List Char
  | _, [] => []
  | 0, s => s
  | fuel + 1, c :: cs =>
    if !pat.isEmpty && pat.isPrefixOf (c :: cs) then
      rep ++ replaceAux pat rep fuel ((c :: cs).drop pat.length)
    else
      c :: replaceAux pat rep fuel cs

/-- Python `s.replace(pat, rep)` for the non-empty patterns used here. -/
def pyReplace (s pat rep : String) : String :=
  String.mk (replaceAux pat.data rep.data s.data.length s.data)

/-- The literal token built for key `key` by `f'\x7b\x7b{key}\x7d\x7d'`. -/
def tokenOf (key : String) : String :=
  "\x7b" ++ key ++ "\x7d"

/-- Python substring test used to talk about remaining tokens. -/
def occursIn (pat s : String) : Bool :=
  isSubList pat.data s.data

/-- `replace_placeholders` from `write_to_template`: when the substitution
map and the text are both truthy, replace each key's token sequentially in
map order. -/
def replace_placeholders (phs : List (String × String)) (t : String) : String :=
  if phs.isEmpty || t.isEmpty then t
  else phs.foldl (fun acc kv => pyReplace acc (tokenOf kv.1) kv.2) t

/-- A value written into a worksheet cell: text, a rounded rational score, or
an integer sample size. -/
inductive Value where
  | s (text : String)
  | q (x : ℚ)
  | n (k : Nat)
deriving DecidableEq

/-- `[avg_values[data_idx] for data_idx in question_mapping.values() if data_idx < len(avg_values)]`. -/
def mappedMeans (df : List Row) (qcols : List String) (qmap : List (Nat × Nat)) :
    List ℚ :=
  qmap.filterMap (fun ci => (avgValues df qcols).get? ci.2)

/-- The data-cell writes of one statistics row of `write_to_template`
(as `(row, column, value)` triples, in write order): each mapped slot whose
data index is within the compacted mean list gets the rounded mean at that
index, column 33 gets the rounded mean of the mapped means, and column 34
gets the respondent count of the (already filtered) row subset. -/
def slotWrites (df : List Row) (qcols : List String) (qmap : List (Nat × Nat))
    (row : Nat) : List (Nat × Nat × Value) :=
  (qmap.filterMap (fun ci =>
      ((avgValues df qcols).get? ci.2).map (fun v => (row, ci.1, Value.q (round2 v)))))
  ++ [(row, 33, Value.q (round2 (pymean (mappedMeans df qcols qmap)))),
      (row, 34, Value.n df.length)]

/-- `df[df[subject_col].isin(labels)]`. -/
def filterIsin (df : List Row) (scol : String) (labels : List String) : List Row :=
  df.filter (fun r => match getCell r scol with
    | some s => labels.contains s
    | none => false)

/-- `subject_row_mapping`: the fixed row index of each report category. -/
def subject_row_mapping : List (String × Nat) :=
  [("全体", 7), ("国語", 8), ("数学", 9), ("地歴公民", 10), ("理科", 11),
   ("外国語", 12), ("保健体育", 13), ("芸術", 14), ("家庭", 15), ("SS", 16)]

/-- The overview-sheet writes of one non-overall category: nothing when the
user assigned no labels to it or when the filtered row subset is empty,
otherwise that category's statistics row at its fixed row index. -/
def categoryBlock (df : List Row) (qcols : List String) (scol : String)
    (qmap : List (Nat × Nat)) (labels : List String) (row : Nat) :
    List (Nat × Nat × Value) :=
  if labels.isEmpty then []
  else if (filterIsin df scol labels).isEmpty then []
  else slotWrites (filterIsin df scol labels) qcols qmap row

/-- The data-cell writes of the overview sheet in the user-mapping branch of
`write_to_template`: the overall row at row 7, then, for each non-overall
category, its `categoryBlock` with the labels the user assigned to it. -/
def overviewWrites (df : List Row) (qcols : List String) (scol : String)
    (smap : List (String × List String)) (qmap : List (Nat × Nat)) :
    List (Nat × Nat × Value) :=
  slotWrites df qcols qmap 7
  ++ subject_row_mapping.flatMap (fun tr =>
      if tr.1 = "全体" then []
      else categoryBlock df qcols scol qmap ((smap.lookup tr.1).getD []) tr.2)

/-- The conditional B-column write of a detail-sheet row: written only when
the template's B cell is truthy, after placeholder substitution. -/
def optB (row : Nat) (phs : List (String × String)) (tb : Option String) :
    List (Nat × Nat × Value) :=
  match tb with
  | some s => if s.isEmpty then [] else [(row, 2, Value.s (replace_placeholders phs s))]
  | none => []

/-- The per-label rows of a detail sheet, starting at `row`: the label name
is always written in column 1 (and column 2 when the template has text
there); the statistics cells are written only when the label's filtered row
subset is non-empty. The row counter advances for every label. -/
def labelRows (df : List Row) (qcols : List String) (scol : String)
    (qmap : List (Nat × Nat)) (phs : List (String × String)) (tb8 : Option String) :
    List String → Nat → List (Nat × Nat × Value)
  | [], _ => []
  | label :: rest, row =>
    ([(row, 1, Value.s label)] ++ optB row phs tb8 ++
      (let sub := df.filter (fun r => getCell r scol == some label)
       if sub.isEmpty then [] else slotWrites sub qcols qmap row))
    ++ labelRows df qcols scol qmap phs tb8 rest (row + 1)

/-- The data-cell writes of the detail sheet created for one category
(`tsubj`, with assigned labels `labels`): nothing when no labels are
assigned; otherwise the category-aggregate row at row 7 (name cell always,
statistics only when the category's filtered subset is non-empty) followed
by one row per label from row 8. `tb7`/`tb8` are the template's B cells of
rows 7 and 8. -/
def detailSheetWrites (df : List Row) (qcols : List String) (scol : String)
    (qmap : List (Nat × Nat)) (phs : List (String × String))
    (tb7 tb8 : Option String) (tsubj : String) (labels : List String) :
    List (Nat × Nat × Value) :=
  if labels.isEmpty then []
  else
    ([(7, 1, Value.s (tsubj ++ "全体"))] ++ optB 7 phs tb7 ++
      (let sub := filterIsin df scol labels
       if sub.isEmpty then [] else slotWrites sub qcols qmap 7))
    ++ labelRows df qcols scol qmap phs tb8 labels 8

/-- The spec's worked example: five respondents, Q1 scores 4,3,2,1,4 and Q2
scores 3,3,2,null,3. -/
def dfExample : List Row :=
  [[("Q1", some "とてもそう思う"), ("Q2", some "そう思う")],
   [("Q1", some "そう思う"), ("Q2", some "そう思う")],
   [("Q1", some "あまりそう思わない"), ("Q2", some "どちらかといえばそう思わない")],
   [("Q1", some "思わない"), ("Q2", none)],
   [("Q1", some "とてもそう思う"), ("Q2", some "そう思う")]]

/-- A one-respondent subset on which Q1 has no recognisable score while Q2
scores 3 and Q3 scores 4: the compacted mean list of `calculate_statistics`
is `[3, 4]`, misaligned with the question indices. -/
def dfBug : List Row :=
  [[("Q1", some "junk"), ("Q2", some "そう思う"), ("Q3", some "とてもそう思う")]]

/-- A one-respondent table whose only subject is 数学I, so filtering for the
label 漢文 yields the empty subset. -/
def dfEmptyCat : List Row :=
  [[("科目", some "数学I"), ("Q1", some "そう思う")]]

lemma qadd_eq (a b : ℚ) : qadd a b = a + b := by
  unfold qadd
  rw [Rat.mkRat_eq_div]
  have ha : ((a.den : ℚ)) ≠ 0 := by
    exact_mod_cast a.den_nz
  have hb : ((b.den : ℚ)) ≠ 0 := by
    exact_mod_cast b.den_nz
  conv_rhs => rw [← Rat.num_div_den a, ← Rat.num_div_den b]
  rw [div_add_div _ _ ha hb]
  push_cast
  ring_nf

lemma qsub_eq (a b : ℚ) : qsub a b = a - b := by
  unfold qsub
  rw [Rat.mkRat_eq_div]
  have ha : ((a.den : ℚ)) ≠ 0 := by
    exact_mod_cast a.den_nz
  have hb : ((b.den : ℚ)) ≠ 0 := by
    exact_mod_cast b.den_nz
  conv_rhs => rw [← Rat.num_div_den a, ← Rat.num_div_den b]
  rw [div_sub_div _ _ ha hb]
  push_cast
  ring_nf

lemma qmulNat_eq (a : ℚ) (k : Nat) : qmulNat a k = a * k := by
  unfold qmulNat
  rw [Rat.mkRat_eq_div]
  conv_rhs => rw [← Rat.num_div_den a]
  push_cast
  rw [div_mul_eq_mul_div]

lemma qdivNat_eq (a : ℚ) (k : Nat) : qdivNat a k = a / k := by
  unfold qdivNat
  rw [Rat.mkRat_eq_div]
  conv_rhs => rw [← Rat.num_div_den a]
  push_cast
  rw [div_div]

lemma qsum_foldl (l : List ℚ) : ∀ acc : ℚ, l.foldl qadd acc = acc + l.sum := by
  induction l with
  | nil => intro acc; simp [List.foldl]
  | cons x xs ih =>
    intro acc
    simp only [List.foldl, qadd_eq, ih, List.sum_cons]
    ring

lemma qsum_eq (l : List ℚ) : qsum l = l.sum := by
  unfold qsum
  rw [qsum_foldl]
  ring

lemma pymean_eq (l : List ℚ) :
    pymean l = if l.length = 0 then 0 else l.sum / (l.length : ℚ) := by
  unfold pymean
  rw [qdivNat_eq, qsum_eq]

lemma meanScores_eq (l : List Nat) : meanScores l = (l.sum : ℚ) / (l.length : ℚ) := by
  unfold meanScores
  rw [Rat.mkRat_eq_div]
  simp [Function.comp_def]

lemma dropWhile_append_of_all {p : Char → Bool} :
    ∀ {ws l : List Char}, (∀ c ∈ ws, p c = true) →
      List.dropWhile p (ws ++ l) = List.dropWhile p l := by
  intro ws
  induction ws with
  | nil => intro l _; rfl
  | cons c cs ih =>
    intro l h
    have hc : p c = true := h c (List.mem_cons_self c cs)
    simp only [List.cons_append, List.dropWhile_cons, hc, if_true]
    exact ih fun x hx => h x (List.mem_cons_of_mem c hx)

lemma dropWhile_append_of_ne_nil {p : Char → Bool} :
    ∀ {l m : List Char}, List.dropWhile p l ≠ [] →
      List.dropWhile p (l ++ m) = List.dropWhile p l ++ m := by
  intro l
  induction l with
  | nil => intro m h; exact absurd rfl h
  | cons c cs ih =>
    intro m h
    by_cases hc : p c = true
    · simp only [List.dropWhile_cons, hc, if_true] at h ⊢
      simp only [List.cons_append, List.dropWhile_cons, hc, if_true]
      exact ih h
    · have hc' : p c = false := by revert hc; cases p c <;> simp
      simp only [List.cons_append, List.dropWhile_cons, hc'] at h ⊢
      simp

lemma stripList_pad {ws₁ ws₂ l : List Char}
    (h₁ : ∀ c ∈ ws₁, isPySpace c = true) (h₂ : ∀ c ∈ ws₂, isPySpace c = true) :
    stripList (ws₁ ++ l ++ ws₂) = stripList l := by
  unfold stripList
  rw [List.append_assoc, dropWhile_append_of_all h₁]
  by_cases h : List.dropWhile isPySpace l = []
  · have hall : ∀ x ∈ l, isPySpace x = true := List.dropWhile_eq_nil_iff.mp h
    rw [dropWhile_append_of_all hall, List.dropWhile_eq_nil_iff.mpr h₂, h]
  · rw [dropWhile_append_of_ne_nil h, List.reverse_append,
      dropWhile_append_of_all (fun c hc => h₂ c (List.mem_reverse.mp hc))]

lemma table_keys_stripped : ∀ pv ∈ SCORE_MAPPING, pyStrip pv.1 = pv.1 := by decide

lemma table_lookup_mem : ∀ pv ∈ SCORE_MAPPING, SCORE_MAPPING.lookup pv.1 = some pv.2 := by
  decide

/-- Claim C7: every phrase of the canonical four-level table converts to its
documented score, unchanged when leading or trailing whitespace is added;
the empty string, null, and any text whose stripped form is absent from the
table convert to null (the function is total, so no error is possible). -/
theorem convert_to_score_canonical :
    (∀ p v, (p, v) ∈ SCORE_MAPPING → ∀ ws₁ ws₂ : List Char,
      (∀ c ∈ ws₁, isPySpace c = true) → (∀ c ∈ ws₂, isPySpace c = true) →
      convert_to_score (some (String.mk (ws₁ ++ p.data ++ ws₂))) = some v)
    ∧ convert_to_score (some "") = none
    ∧ convert_to_score none = none
    ∧ (∀ s : String, SCORE_MAPPING.lookup (pyStrip s) = none →
        convert_to_score (some s) = none) := by
  refine ⟨?_, rfl, rfl, ?_⟩
  · intro p v hmem ws₁ ws₂ h₁ h₂
    have hstr : pyStrip p = p := table_keys_stripped (p, v) hmem
    have hdata : stripList p.data = p.data := congrArg String.data hstr
    show SCORE_MAPPING.lookup (pyStrip (String.mk (ws₁ ++ p.data ++ ws₂))) = some v
    have : pyStrip (String.mk (ws₁ ++ p.data ++ ws₂)) = p := by
      show String.mk (stripList (ws₁ ++ p.data ++ ws₂)) = p
      rw [stripList_pad h₁ h₂, hdata]
    rw [this]
    exact table_lookup_mem (p, v) hmem
  · intro s h
    show SCORE_MAPPING.lookup (pyStrip s) = none
    exact h

/-- Witness for C7 at concrete inputs. -/
theorem convert_to_score_canonical_witness :
    (("そう思う", 3) ∈ SCORE_MAPPING
      ∧ convert_to_score (some (String.mk ([' '] ++ "そう思う".data ++ [' ', '\t']))) = some 3)
    ∧ convert_to_score (some "無関係なテキスト") = none :=
  ⟨⟨by decide,
    convert_to_score_canonical.1 "そう思う" 3 (by decide) [' '] [' ', '\t']
      (by decide) (by decide)⟩,
   convert_to_score_canonical.2.2.2 "無関係なテキスト" (by decide)⟩

/-- Claim C6: every row emitted by `calculate_statistics` has a strictly
positive valid count, its question has a non-empty valid-score list (so
zero-valid questions never appear in the output), and all four bucket-count
fields are present and equal the number of valid scores at each level
(absent levels therefore report 0). -/
theorem calculate_statistics_no_zero_rows :
    ∀ (df : List Row) (qcols : List String) (st : QuestionStat),
      st ∈ calculate_statistics df qcols →
      0 < st.validCount ∧ validScores df st.question ≠ []
      ∧ st.validCount = (validScores df st.question).length
      ∧ st.count4 = (validScores df st.question).count 4
      ∧ st.count3 = (validScores df st.question).count 3
      ∧ st.count2 = (validScores df st.question).count 2
      ∧ st.count1 = (validScores df st.question).count 1 := by
  intro df qcols st hmem
  simp only [calculate_statistics, List.mem_filterMap] at hmem
  obtain ⟨q, _, heq⟩ := hmem
  by_cases hlen : (validScores df q).length = 0
  · simp [hlen] at heq
  · simp only [hlen, if_false] at heq
    obtain rfl := Option.some_injective _ heq
    refine ⟨Nat.pos_of_ne_zero hlen, ?_, rfl, rfl, rfl, rfl, rfl⟩
    intro hnil
    exact hlen (by rw [hnil]; rfl)

/-- Witness for C6 at a concrete table: one recognised answer for Q1, an
unrecognised answer for Q2. -/
theorem calculate_statistics_no_zero_rows_witness :
    ((⟨"Q1", 3, 1, 0, 1, 0, 0⟩ : QuestionStat)
        ∈ calculate_statistics [[("Q1", some "そう思う"), ("Q2", some "junk")]] ["Q1", "Q2"])
    ∧ (0 < (1 : Nat)
        ∧ validScores [[("Q1", some "そう思う"), ("Q2", some "junk")]] "Q1" ≠ []
        ∧ (1 : Nat) = (validScores [[("Q1", some "そう思う"), ("Q2", some "junk")]] "Q1").length
        ∧ (0 : Nat) = (validScores [[("Q1", some "そう思う"), ("Q2", some "junk")]] "Q1").count 4
        ∧ (1 : Nat) = (validScores [[("Q1", some "そう思う"), ("Q2", some "junk")]] "Q1").count 3
        ∧ (0 : Nat) = (validScores [[("Q1", some "そう思う"), ("Q2", some "junk")]] "Q1").count 2
        ∧ (0 : Nat) = (validScores [[("Q1", some "そう思う"), ("Q2", some "junk")]] "Q1").count 1) :=
  ⟨by decide,
   calculate_statistics_no_zero_rows
     [[("Q1", some "そう思う"), ("Q2", some "junk")]] ["Q1", "Q2"]
     ⟨"Q1", 3, 1, 0, 1, 0, 0⟩ (by decide)⟩

lemma foldl_append_validScores (df : List Row) :
    ∀ (qcols : List String) (acc : List Nat),
      qcols.foldl (fun a q => a ++ validScores df q) acc = acc ++ allValidScores df qcols := by
  intro qcols
  induction qcols with
  | nil => intro acc; simp [allValidScores]
  | cons q rest ih =>
    intro acc
    simp only [List.foldl, ih, allValidScores, List.map_cons, List.flatten_cons,
      List.append_assoc]

lemma overall_average_eq (df : List Row) (qcols : List String) :
    get_overall_average df qcols = overallAverageSpec df qcols := by
  unfold get_overall_average overallAverageSpec
  rw [foldl_append_validScores df qcols []]
  simp only [List.nil_append]
  by_cases h : (allValidScores df qcols).length = 0
  · simp [h]
  · simp only [h, if_false]
    rw [Rat.mkRat_eq_div]
    simp [Function.comp_def]

/-- Claim C4: `get_overall_average` is the mean over the union of all valid
scores across all question columns (sum of all valid scores over their
count), not the mean of the per-question means; at the spec's worked
example (Q1 scores 4,3,2,1,4 and Q2 scores 3,3,2,null,3) it equals 25/9,
while the mean of the per-question means is 111/40 — a different number. -/
theorem get_overall_average_union_mean :
    (∀ (df : List Row) (qcols : List String),
      get_overall_average df qcols = overallAverageSpec df qcols)
    ∧ get_overall_average dfExample ["Q1", "Q2"] = 25/9
    ∧ pymean (avgValues dfExample ["Q1", "Q2"]) = 111/40
    ∧ (25/9 : ℚ) ≠ 111/40 := by
  refine ⟨overall_average_eq, ?_, ?_, by norm_num⟩
  · have h : get_overall_average dfExample ["Q1", "Q2"] = mkRat 25 9 := by decide
    rw [h, Rat.mkRat_eq_div]
    norm_num
  · have h : pymean (avgValues dfExample ["Q1", "Q2"]) = mkRat 111 40 := by decide
    rw [h, Rat.mkRat_eq_div]
    norm_num

/-- Claim C10: when the union of valid scores over all question columns is
empty (in particular for an empty row set or an empty question-column
list), `get_overall_average` returns exactly 0. -/
theorem get_overall_average_empty_zero :
    ∀ (df : List Row) (qcols : List String),
      allValidScores df qcols = [] → get_overall_average df qcols = 0 := by
  intro df qcols h
  rw [overall_average_eq]
  unfold overallAverageSpec
  rw [h]
  simp

/-- Witness for C10: a non-empty table whose single question column contains
no recognisable score. -/
theorem get_overall_average_empty_zero_witness :
    allValidScores [[("Q1", some "junk")]] ["Q1"] = []
    ∧ get_overall_average [[("Q1", some "junk")]] ["Q1"] = 0 :=
  ⟨by decide,
   get_overall_average_empty_zero [[("Q1", some "junk")]] ["Q1"] (by decide)⟩

lemma findExactAux_of_first (tq : String) :
    ∀ (l : List String) (i : Nat), l.get? i = some tq →
      (∀ j, j < i → l.get? j ≠ some tq) →
      ∀ s : Nat, findExactAux tq l s = some (s + i) := by
  intro l
  induction l with
  | nil => intro i hi _ s; simp at hi
  | cons q rest ih =>
    intro i hi hfirst s
    cases i with
    | zero =>
      simp only [List.get?] at hi
      obtain rfl := Option.some_injective _ hi
      simp [findExactAux]
    | succ i' =>
      have hq : ¬ (q == tq) = true := by
        intro hbeq
        exact hfirst 0 (Nat.succ_pos i') (by simpa using (eq_of_beq hbeq))
      simp only [findExactAux, hq, if_false]
      have hrest : rest.get? i' = some tq := hi
      have hfirst' : ∀ j, j < i' → rest.get? j ≠ some tq := by
        intro j hj
        exact hfirst (j + 1) (Nat.succ_lt_succ hj)
      rw [ih i' hrest hfirst' (s + 1)]
      have harith : s + 1 + i' = s + (i' + 1) := by omega
      rw [harith]
      simp

lemma findExactAux_isSome_of_mem (tq : String) :
    ∀ (l : List String), tq ∈ l → ∀ s : Nat, (findExactAux tq l s).isSome := by
  intro l
  induction l with
  | nil => intro h; simp at h
  | cons q rest ih =>
    intro hmem s
    by_cases hq : (q == tq) = true
    · simp [findExactAux, hq]
    · have : tq ∈ rest := by
        rcases List.mem_cons.mp hmem with h | h
        · exact absurd (beq_iff_eq.mpr h.symm) hq
        · exact h
      simp only [findExactAux, hq, if_false]
      exact ih this (s + 1)

lemma findPartialAux_spec (tq : String) :
    ∀ (l : List String) (s i : Nat) (mt : MatchType),
      findPartialAux tq l s = some (i, mt) →
      ∃ k, i = s + k ∧ k < l.length
        ∧ ((mt = MatchType.tSubD ∧ isSub tq (l.getD k "") = true)
            ∨ (mt = MatchType.dSubT ∧ isSub tq (l.getD k "") = false
                ∧ isSub (l.getD k "") tq = true))
        ∧ ∀ j, j < k → isSub tq (l.getD j "") = false ∧ isSub (l.getD j "") tq = false := by
  intro l
  induction l with
  | nil => intro s i mt h; simp [findPartialAux] at h
  | cons q rest ih =>
    intro s i mt h
    by_cases h1 : isSub tq q = true
    · simp only [findPartialAux, h1, if_true] at h
      simp only [Option.some.injEq, Prod.mk.injEq] at h
      obtain ⟨rfl, rfl⟩ := h
      exact ⟨0, by omega, Nat.succ_pos _, Or.inl ⟨rfl, h1⟩, fun j hj => absurd hj (Nat.not_lt_zero j)⟩
    · have h1' : isSub tq q = false := by revert h1; cases isSub tq q <;> simp
      by_cases h2 : isSub q tq = true
      · simp only [findPartialAux, h1', if_false, h2, if_true] at h
        simp at h
        obtain ⟨rfl, rfl⟩ := h
        exact ⟨0, by omega, Nat.succ_pos _, Or.inr ⟨rfl, h1', h2⟩,
          fun j hj => absurd hj (Nat.not_lt_zero j)⟩
      · have h2' : isSub q tq = false := by revert h2; cases isSub q tq <;> simp
        simp only [findPartialAux, h1', h2', if_false] at h
        obtain ⟨k, hk, hklen, hdisj, hbefore⟩ := ih (s + 1) i mt h
        refine ⟨k + 1, by omega, Nat.succ_lt_succ hklen, ?_, ?_⟩
        · simpa using hdisj
        · intro j hj
          cases j with
          | zero => exact ⟨h1', h2'⟩
          | succ j' => simpa using hbefore j' (Nat.lt_of_succ_lt_succ hj)

/-- Claim C5: exact matching takes strict priority over partial matching in
the slot reconciliation. If position `i` holds the first data question whose
text is identical to the slot text, the slot maps to `i` with the exact
match type — regardless of any earlier partial-match candidates. When a
slot is matched with a non-exact type, no data question equals the slot
text, the claimed index is in range, the claimed candidate satisfies one of
the two substring tests (slot-in-data reported as such when it holds), and
every earlier candidate fails both substring tests, so the first qualifying
candidate in original column order is the one claimed. -/
theorem matchSlot_exact_priority :
    (∀ (qcols : List String) (tq : String) (i : Nat),
      qcols.get? i = some tq → (∀ j, j < i → qcols.get? j ≠ some tq) →
      matchSlot qcols tq = some (i, MatchType.exact))
    ∧ (∀ (qcols : List String) (tq : String) (i : Nat) (mt : MatchType),
      matchSlot qcols tq = some (i, mt) → mt ≠ MatchType.exact →
      tq ∉ qcols ∧ i < qcols.length
      ∧ ((mt = MatchType.tSubD ∧ isSub tq (qcols.getD i "") = true)
          ∨ (mt = MatchType.dSubT ∧ isSub tq (qcols.getD i "") = false
              ∧ isSub (qcols.getD i "") tq = true))
      ∧ ∀ j, j < i → isSub tq (qcols.getD j "") = false
          ∧ isSub (qcols.getD j "") tq = false) := by
  constructor
  · intro qcols tq i hi hfirst
    unfold matchSlot
    rw [findExactAux_of_first tq qcols i hi hfirst 0]
    simp
  · intro qcols tq i mt hm hne
    have hnone : findExactAux tq qcols 0 = none := by
      cases hfe : findExactAux tq qcols 0 with
      | none => rfl
      | some k =>
        unfold matchSlot at hm
        rw [hfe] at hm
        simp at hm
        exact absurd hm.2.symm hne
    have hnotmem : tq ∉ qcols := by
      intro hmem
      have := findExactAux_isSome_of_mem tq qcols hmem 0
      rw [hnone] at this
      simp at this
    unfold matchSlot at hm
    rw [hnone] at hm
    obtain ⟨k, hk, hklen, hdisj, hbefore⟩ := findPartialAux_spec tq qcols 0 i mt hm
    have hik : i = k := by omega
    subst hik
    exact ⟨hnotmem, hklen, hdisj, hbefore⟩

/-- Witness for C5: the slot text 出席番号 has an earlier partial-match
candidate 出席 at index 0, yet the exact match at index 1 is claimed. -/
theorem matchSlot_exact_priority_witness :
    matchSlot ["出席", "出席番号"] "出席番号" = some (1, MatchType.exact) :=
  matchSlot_exact_priority.1 ["出席", "出席番号"] "出席番号" 1 (by decide) (by decide)

/-- Counterexample to claim C1: with template slots 出席 (column 3) and
出席番号 (column 4) and the single data question 出席番号, the data question
is claimed by slot 出席 via partial match AND still claimed by slot 出席番号
via exact match — the slot 出席番号 does not appear in the unmapped-slot
list, which is empty. -/
theorem reconcile_no_used_set_counterexample :
    (4, 0, MatchType.exact) ∈ reconcile [(3, "出席"), (4, "出席番号")] ["出席番号"]
    ∧ (3, 0, MatchType.tSubD) ∈ reconcile [(3, "出席"), (4, "出席番号")] ["出席番号"]
    ∧ (4, "出席番号") ∉ unmappedSlots [(3, "出席"), (4, "出席番号")] ["出席番号"] := by
  refine ⟨by decide, by decide, by decide⟩

/-- Claim C1 (amended): the reconciliation keeps no used-set — each slot is
matched against the full data-question list independently of every other
slot, so one data question can be claimed by several slots. At the claim's
example, slot 出席 claims 出席番号 via partial match, slot 出席番号 claims
the same data question via exact match, and the unmapped-slot list is
empty. -/
theorem reconcile_slot_independent :
    (∀ (pre post : List (Nat × String)) (c : Nat) (tq : String) (qcols : List String),
      reconcile (pre ++ (c, tq) :: post) qcols =
        reconcile pre qcols
        ++ ((matchSlot qcols tq).map (fun im => (c, im.1, im.2))).toList
        ++ reconcile post qcols)
    ∧ reconcile [(3, "出席"), (4, "出席番号")] ["出席番号"]
        = [(3, 0, MatchType.tSubD), (4, 0, MatchType.exact)]
    ∧ unmappedSlots [(3, "出席"), (4, "出席番号")] ["出席番号"] = [] := by
  refine ⟨?_, by decide, by decide⟩
  intro pre post c tq qcols
  unfold reconcile
  rw [List.filterMap_append, List.filterMap_cons]
  cases h : matchSlot qcols tq <;> simp [h]

/-- Counterexample to claim C3: a data question at index 30 is mapped to a
template slot (the matching loop scans the whole header list), even though
it also appears in the excess-question list. -/
theorem excess_question_mapped_counterexample :
    (3, 30, MatchType.exact) ∈ reconcile [(3, "Q")] (List.replicate 30 "x" ++ ["Q"])
    ∧ "Q" ∈ excess_questions (List.replicate 30 "x" ++ ["Q"]) := by
  refine ⟨by decide, by decide⟩

/-- Claim C3 (amended): the excess-question list equals exactly the sub-list
of data question headers from index 30 onward; however data questions at
index 30 or greater can still be mapped to a template slot, since the
matching loop enumerates the entire header list (at the 31-header example,
the slot mapping claims index 30 by exact match). -/
theorem excess_questions_drop30 :
    (∀ qcols : List String, excess_questions qcols = qcols.drop 30)
    ∧ reconcile [(3, "Q")] (List.replicate 30 "x" ++ ["Q"]) = [(3, 30, MatchType.exact)]
    ∧ excess_questions (List.replicate 30 "x" ++ ["Q"]) = ["Q"] := by
  refine ⟨?_, by decide, by decide⟩
  intro qcols
  unfold excess_questions
  by_cases h : 30 < qcols.length
  · simp [h]
  · rw [if_neg h, List.drop_of_length_le (by omega)]

lemma replaceAux_of_not_sub (pat rep : List Char) :
    ∀ (fuel : Nat) (s : List Char), isSubList pat s = false →
      replaceAux pat rep fuel s = s := by
  intro fuel
  induction fuel with
  | zero => intro s _; cases s <;> rfl
  | succ fuel ih =>
    intro s hs
    cases s with
    | nil => rfl
    | cons c cs =>
      have hsplit : pat.isPrefixOf (c :: cs) = false ∧ isSubList pat cs = false := by
        have : (pat.isPrefixOf (c :: cs) || isSubList pat cs) = false := hs
        constructor
        · cases hpre : pat.isPrefixOf (c :: cs) <;> simp_all
        · cases hrest : isSubList pat cs <;> simp_all
      show (if !pat.isEmpty && pat.isPrefixOf (c :: cs) then
          rep ++ replaceAux pat rep fuel ((c :: cs).drop pat.length)
        else c :: replaceAux pat rep fuel cs) = c :: cs
      rw [hsplit.1]
      simp only [Bool.and_false]
      simp only [ih cs hsplit.2]
      simp

lemma pyReplace_of_not_occurs (s pat rep : String) (h : occursIn pat s = false) :
    pyReplace s pat rep = s := by
  unfold pyReplace
  rw [replaceAux_of_not_sub pat.data rep.data s.data.length s.data h]

lemma placeholder_foldl_id (phs : List (String × String)) :
    ∀ t : String, (∀ kv ∈ phs, occursIn (tokenOf kv.1) t = false) →
      phs.foldl (fun acc kv => pyReplace acc (tokenOf kv.1) kv.2) t = t := by
  induction phs with
  | nil => intro t _; rfl
  | cons kv rest ih =>
    intro t h
    have hhead : pyReplace t (tokenOf kv.1) kv.2 = t :=
      pyReplace_of_not_occurs t (tokenOf kv.1) kv.2 (h kv (List.mem_cons_self kv rest))
    simp only [List.foldl, hhead]
    exact ih t (fun kv' hkv' => h kv' (List.mem_cons_of_mem kv hkv'))

lemma replace_placeholders_id (phs : List (String × String)) (t : String)
    (h : ∀ kv ∈ phs, occursIn (tokenOf kv.1) t = false) :
    replace_placeholders phs t = t := by
  unfold replace_placeholders
  by_cases hc : (phs.isEmpty || t.isEmpty) = true
  · rw [if_pos hc]
  · rw [if_neg hc]
    exact placeholder_foldl_id phs t h

/-- Counterexample to claim C9: placeholder substitution is not idempotent
for every substitution map and text. With the single-key map sending `a` to
the empty string, one application to the text `\x7b\x7ba\x7da\x7d` produces
`\x7ba\x7d` (a fresh token assembled from the residue), and a second
application produces the empty string. -/
theorem replace_placeholders_not_idempotent :
    replace_placeholders [("a", "")] "\x7b\x7ba\x7da\x7d" = "\x7ba\x7d"
    ∧ replace_placeholders [("a", "")]
        (replace_placeholders [("a", "")] "\x7b\x7ba\x7da\x7d") = ""
    ∧ ("\x7ba\x7d" : String) ≠ "" := by
  refine ⟨by decide, by decide, by decide⟩

/-- Claim C9 (amended): placeholder substitution is idempotent whenever the
once-substituted text contains no remaining token of any key in the map —
in particular a second application changes nothing; and a text containing
no token of any key of the map (for example one whose only tokens have
unknown names) is returned verbatim. -/
theorem replace_placeholders_idempotent :
    (∀ (phs : List (String × String)) (t : String),
      (∀ kv ∈ phs, occursIn (tokenOf kv.1) (replace_placeholders phs t) = false) →
      replace_placeholders phs (replace_placeholders phs t) = replace_placeholders phs t)
    ∧ (∀ (phs : List (String × String)) (t : String),
      (∀ kv ∈ phs, occursIn (tokenOf kv.1) t = false) →
      replace_placeholders phs t = t) :=
  ⟨fun phs t h => replace_placeholders_id phs (replace_placeholders phs t) h,
   replace_placeholders_id⟩

/-- Witness for C9 on template-like text: substituting the year key once
leaves no remaining `Y` token, so a second pass is the identity, and the
unknown token with name `n` survives verbatim. -/
theorem replace_placeholders_idempotent_witness :
    replace_placeholders [("Y", "2025")]
        (replace_placeholders [("Y", "2025")] "R\x7bY\x7d 第\x7bn\x7d回")
      = replace_placeholders [("Y", "2025")] "R\x7bY\x7d 第\x7bn\x7d回"
    ∧ replace_placeholders [("Y", "2025")] "第\x7bn\x7d回" = "第\x7bn\x7d回" :=
  ⟨replace_placeholders_idempotent.1 [("Y", "2025")] "R\x7bY\x7d 第\x7bn\x7d回"
      (by decide),
   replace_placeholders_idempotent.2 [("Y", "2025")] "第\x7bn\x7d回" (by decide)⟩

/-- Claim C2 (code evaluation at the failing input): `calculate_statistics`
drops zero-valid questions, so its mean list is compacted and no longer
aligned with the question indices used by the slot mapping. On `dfBug`
(Q1 has no valid response, Q2 scores 3, Q3 scores 4) the mean list is
`[3, 4]`; the slot at column 5 mapped to data question index 1 (Q2, whose
mean over this subset is 3) receives the value 4 — Q3's mean — and the
fixed extra column 33 likewise receives 4, while the claim says the cell
must hold Q2's mean 3. -/
theorem slotWrites_misaligned_after_drop :
    avgValues dfBug ["Q1", "Q2", "Q3"] = [3, 4]
    ∧ slotWrites dfBug ["Q1", "Q2", "Q3"] [(5, 1)] 8
        = [(8, 5, Value.q 4), (8, 33, Value.q 4), (8, 34, Value.n 1)]
    ∧ meanScores (validScores dfBug "Q2") = 3
    ∧ validScores dfBug "Q1" = []
    ∧ Value.q 4 ≠ Value.q 3 := by
  refine ⟨by decide, by decide, by decide, by decide, by decide⟩

lemma slotWrites_mem_row (df : List Row) (qcols : List String)
    (qmap : List (Nat × Nat)) (row : Nat) :
    ∀ w ∈ slotWrites df qcols qmap row, w.1 = row := by
  intro w hw
  unfold slotWrites at hw
  rcases List.mem_append.mp hw with h | h
  · obtain ⟨ci, _, hci⟩ := List.mem_filterMap.mp h
    rcases Option.map_eq_some'.mp hci with ⟨v, _, hv⟩
    rw [← hv]
  · rcases List.mem_cons.mp h with h1 | h1
    · rw [h1]
    · rcases List.mem_cons.mp h1 with h2 | h2
      · rw [h2]
      · simp at h2

lemma categoryBlock_mem_row (df : List Row) (qcols : List String) (scol : String)
    (qmap : List (Nat × Nat)) (labels : List String) (row : Nat) :
    ∀ w ∈ categoryBlock df qcols scol qmap labels row, w.1 = row := by
  intro w hw
  unfold categoryBlock at hw
  by_cases h1 : labels.isEmpty = true
  · rw [if_pos h1] at hw; simp at hw
  · rw [if_neg h1] at hw
    by_cases h2 : (filterIsin df scol labels).isEmpty = true
    · rw [if_pos h2] at hw; simp at hw
    · rw [if_neg h2] at hw
      exact slotWrites_mem_row _ _ _ _ w hw

lemma categoryBlock_of_empty_filter (df : List Row) (qcols : List String)
    (scol : String) (qmap : List (Nat × Nat)) (labels : List String) (row : Nat)
    (h : filterIsin df scol labels = []) :
    categoryBlock df qcols scol qmap labels row = [] := by
  unfold categoryBlock
  by_cases h1 : labels.isEmpty = true
  · rw [if_pos h1]
  · rw [if_neg h1, if_pos (by rw [h]; rfl)]

lemma subject_rows_ne_seven :
    ∀ p ∈ subject_row_mapping, p.1 ≠ "全体" → p.2 ≠ 7 := by decide

lemma subject_rows_injective :
    ∀ p ∈ subject_row_mapping, ∀ q ∈ subject_row_mapping, p.2 = q.2 → p.1 = q.1 := by
  decide

lemma labelRows_name_mem (df : List Row) (qcols : List String) (scol : String)
    (qmap : List (Nat × Nat)) (phs : List (String × String)) (tb8 : Option String) :
    ∀ (labels : List String) (start j : Nat), j < labels.length →
      (start + j, 1, Value.s (labels.getD j ""))
        ∈ labelRows df qcols scol qmap phs tb8 labels start := by
  intro labels
  induction labels with
  | nil => intro start j hj; simp at hj
  | cons label rest ih =>
    intro start j hj
    cases j with
    | zero =>
      apply List.mem_append_left
      apply List.mem_append_left
      apply List.mem_append_left
      simp
    | succ j' =>
      apply List.mem_append_right
      have := ih (start + 1) j' (Nat.lt_of_succ_lt_succ hj)
      have harith : start + (j' + 1) = start + 1 + j' := by omega
      rw [harith]
      simpa using this

/-- Counterexample to claim C8: a category (国語, assigned the single label
漢文) whose filtered row subset is empty still gets its detail sheet rows —
the category-aggregate name cell at row 7 and the label name cell at row 8
are written even though no respondent matches, so rows ARE emitted in the
per-category detail sheet for an empty filtered subset. -/
theorem detail_sheet_rows_for_empty_subset :
    detailSheetWrites dfEmptyCat ["Q1"] "科目" [] [] none none "国語" ["漢文"]
      = [(7, 1, Value.s "国語全体"), (8, 1, Value.s "漢文")]
    ∧ filterIsin dfEmptyCat "科目" ["漢文"] = [] := by
  refine ⟨by decide, by decide⟩

/-- Claim C8 (amended): in the overview sheet a requested category whose
filtered row subset is empty produces no write at its fixed row (and no
error, the writer being total); in the per-category detail sheets, however,
the name cells are still emitted — the category-aggregate name at row 7
whenever the category has assigned labels, and each constituent label's
name at its own row regardless of whether that label's filtered subset is
empty — only the statistics cells are omitted there. -/
theorem empty_subset_writes :
    (∀ (df : List Row) (qcols : List String) (scol : String)
      (smap : List (String × List String)) (qmap : List (Nat × Nat))
      (ts : String) (row : Nat),
      (ts, row) ∈ subject_row_mapping → ts ≠ "全体" →
      filterIsin df scol ((smap.lookup ts).getD []) = [] →
      ((overviewWrites df qcols scol smap qmap).all (fun w => w.1 != row)) = true)
    ∧ (∀ (df : List Row) (qcols : List String) (scol : String)
      (qmap : List (Nat × Nat)) (phs : List (String × String))
      (tb7 tb8 : Option String) (tsubj : String) (labels : List String) (j : Nat),
      j < labels.length →
      (8 + j, 1, Value.s (labels.getD j ""))
        ∈ detailSheetWrites df qcols scol qmap phs tb7 tb8 tsubj labels)
    ∧ (∀ (df : List Row) (qcols : List String) (scol : String)
      (qmap : List (Nat × Nat)) (phs : List (String × String))
      (tb7 tb8 : Option String) (tsubj : String) (labels : List String),
      labels ≠ [] →
      (7, 1, Value.s (tsubj ++ "全体"))
        ∈ detailSheetWrites df qcols scol qmap phs tb7 tb8 tsubj labels) := by
  refine ⟨?_, ?_, ?_⟩
  · intro df qcols scol smap qmap ts row hmem hne hempty
    rw [List.all_eq_true]
    intro w hw
    rw [bne_iff_ne]
    have hrow7 : row ≠ 7 := subject_rows_ne_seven (ts, row) hmem hne
    unfold overviewWrites at hw
    rcases List.mem_append.mp hw with h | h
    · have := slotWrites_mem_row df qcols qmap 7 w h
      omega
    · obtain ⟨tr, htr, hblock⟩ := List.mem_flatMap.mp h
      by_cases hts : tr.1 = "全体"
      · rw [if_pos hts] at hblock
        simp at hblock
      · rw [if_neg hts] at hblock
        have hwrow : w.1 = tr.2 := categoryBlock_mem_row _ _ _ _ _ _ w hblock
        intro hcontra
        have htr_row : tr.2 = row := by rw [← hwrow, hcontra]
        have : tr.1 = ts := subject_rows_injective tr htr (ts, row) hmem htr_row
        rw [this] at hblock
        rw [categoryBlock_of_empty_filter df qcols scol qmap _ tr.2 hempty] at hblock
        simp at hblock
  · intro df qcols scol qmap phs tb7 tb8 tsubj labels j hj
    unfold detailSheetWrites
    have hnotempty : labels.isEmpty = false := by
      cases labels with
      | nil => simp at hj
      | cons a as => rfl
    rw [hnotempty]
    simp only [Bool.false_eq_true, if_false]
    apply List.mem_append_right
    exact labelRows_name_mem df qcols scol qmap phs tb8 labels 8 j hj
  · intro df qcols scol qmap phs tb7 tb8 tsubj labels hne
    unfold detailSheetWrites
    have hnotempty : labels.isEmpty = false := by
      cases labels with
      | nil => exact absurd rfl hne
      | cons a as => rfl
    rw [hnotempty]
    simp only [Bool.false_eq_true, if_false]
    apply List.mem_append_left
    apply List.mem_append_left
    apply List.mem_append_left
    simp

/-- Witness for C8 at concrete inputs: with only a 数学I respondent, the
category 国語 (labels 漢文) filters to the empty subset — the overview
sheet contains no write at its row 8; the detail sheet still contains the
label name cell at row 8 and the aggregate name cell at row 7. -/
theorem empty_subset_writes_witness :
    ((overviewWrites dfEmptyCat ["Q1"] "科目" [("国語", ["漢文"])] [(3, 0)]).all
        (fun w => w.1 != 8)) = true
    ∧ (8 + 0, 1, Value.s (["漢文"].getD 0 ""))
        ∈ detailSheetWrites dfEmptyCat ["Q1"] "科目" [] [] none none "国語" ["漢文"]
    ∧ (7, 1, Value.s ("国語" ++ "全体"))
        ∈ detailSheetWrites dfEmptyCat ["Q1"] "科目" [] [] none none "国語" ["漢文"] :=
  ⟨empty_subset_writes.1 dfEmptyCat ["Q1"] "科目" [("国語", ["漢文"])] [(3, 0)]
      "国語" 8 (by decide) (by decide) (by decide),
   empty_subset_writes.2.1 dfEmptyCat ["Q1"] "科目" [] [] none none "国語" ["漢文"]
      0 (by decide),
   empty_subset_writes.2.2 dfEmptyCat ["Q1"] "科目" [] [] none none "国語" ["漢文"]
      (by decide)⟩

lemma avgValues_aligned (df : List Row) :
    ∀ qcols : List String, (∀ q ∈ qcols, validScores df q ≠ []) →
      avgValues df qcols = qcols.map (fun q => meanScores (validScores df q)) := by
  intro qcols
  induction qcols with
  | nil => intro _; rfl
  | cons q rest ih =>
    intro h
    have hq : validScores df q ≠ [] := h q (List.mem_cons_self q rest)
    have hlen : ¬ (validScores df q).length = 0 := by
      intro hc
      exact hq (List.length_eq_zero.mp hc)
    unfold avgValues calculate_statistics
    simp only [List.filterMap_cons, hlen, if_false, List.map_cons]
    have := ih (fun q' hq' => h q' (List.mem_cons_of_mem q hq'))
    unfold avgValues calculate_statistics at this
    rw [this]

lemma slotWrites_aligned (df : List Row) (qcols : List String)
    (qmap : List (Nat × Nat)) (row : Nat)
    (hrange : ∀ ci ∈ qmap, ci.2 < qcols.length)
    (hvalid : ∀ q ∈ qcols, validScores df q ≠ []) :
    slotWrites df qcols qmap row =
      qmap.map (fun ci =>
        (row, ci.1, Value.q (round2 (meanScores (validScores df (qcols.getD ci.2 ""))))))
      ++ [(row, 33, Value.q (round2 (pymean (qmap.map (fun ci =>
            meanScores (validScores df (qcols.getD ci.2 ""))))))),
          (row, 34, Value.n df.length)] := by
  have hget : ∀ ci ∈ qmap, (avgValues df qcols).get? ci.2
      = some (meanScores (validScores df (qcols.getD ci.2 ""))) := by
    intro ci hci
    rw [avgValues_aligned df qcols hvalid, List.get?_eq_getElem?, List.getElem?_map,
      List.getElem?_eq_getElem (by simpa using hrange ci hci)]
    rw [List.getD_eq_getElem qcols "" (hrange ci hci)]
    rfl
  unfold slotWrites
  congr 1
  · induction qmap with
    | nil => rfl
    | cons ci rest ih =>
      simp only [List.filterMap_cons, hget ci (List.mem_cons_self ci rest),
        Option.map_some', List.map_cons]
      rw [ih (fun x hx => hrange x (List.mem_cons_of_mem ci hx))
        (fun x hx => hget x (List.mem_cons_of_mem ci hx))]
  · have hmeans : mappedMeans df qcols qmap = qmap.map (fun ci =>
        meanScores (validScores df (qcols.getD ci.2 ""))) := by
      unfold mappedMeans
      induction qmap with
      | nil => rfl
      | cons ci rest ih =>
        simp only [List.filterMap_cons, hget ci (List.mem_cons_self ci rest),
          List.map_cons]
        rw [ih (fun x hx => hrange x (List.mem_cons_of_mem ci hx))
          (fun x hx => hget x (List.mem_cons_of_mem ci hx))]
    rw [hmeans]
